import Mathlib

/-!
Verification of the loto-site front-end issuance pipeline.

Shallow embedding of the browser-side code:
* `auth.js` — session manager (`fetchWithAuth`, `requirePremium`);
* `loto6-logic.js` / `loto7-logic.js` — draw-info client (`fetchLatestDraw`),
  prediction client (`fetchPredictionsFromEngine`), issue-button click handler,
  `showPredictions`, `generateUniqueNumbersWithFixed`, `clampInt`;
* `loto7-fortune.js` — `fetchFortuneOnce`.

Network effects are embedded by passing the transport result
(`Except String resp`, an error being a thrown message) as an explicit
argument; `localStorage` is embedded as a `Storage` value threaded through;
`window.location.href` assignments are returned as an `Option String`
navigation target.  JavaScript numbers are embedded as rationals plus
`NaN`/`±Infinity` where that matters (`clampInt`), and JSON fields that the
code probes with optional chaining or `Array.isArray` are embedded as
`Option` fields.
-/

/-- `Response.ok` of the fetch API: status in 200..299. -/
def statusOk (s : Nat) : Bool := decide (200 ≤ s ∧ s ≤ 299)

/-- Profile object cached under the `user` localStorage key
(`/auth/me` body); only the `is_premium` flag is inspected by the code. -/
structure UserProfile where
  is_premium : Bool
deriving DecidableEq

/-- The browser-persisted session state: localStorage keys
`access_token` and `user` managed by `auth.js`. -/
structure Storage where
  access_token : Option String
  user : Option UserProfile
deriving DecidableEq

/-- A `fetch` request body: a string (possibly empty) or some non-string
object (e.g. `FormData`).  `fetchWithAuth` only adds a Content-Type when
`options.body && typeof options.body === "string"` holds. -/
inductive JsBody
  | str (s : String)
  | nonString
deriving DecidableEq

/-- JavaScript truthiness of a possibly-absent header value:
`undefined` and `""` are falsy, every other string is truthy. -/
def jsTruthyStr : Option String → Bool
  | none => false
  | some s => !(s == "")

/-- The guard `options.body && typeof options.body === "string"`. -/
def bodyIsNonemptyString : Option JsBody → Bool
  | some (JsBody.str s) => !(s == "")
  | _ => false

/-- JS object property assignment `h[k] = v` on a headers object,
viewed as a (name → value) map. -/
def setHeader (h : String → Option String) (k v : String) : String → Option String :=
  fun name => if name = k then some v else h name

/-- The `options` argument of `fetchWithAuth` (headers as a name → value map;
`fun _ => none` models an absent/empty headers object). -/
structure FetchOptions where
  method : String
  headers : String → Option String
  body : Option JsBody

/-- Header decoration performed by `fetchWithAuth` (auth.js lines 48–55):
copy the caller's headers, set `Authorization: Bearer <token>` when a token
is persisted, then set `Content-Type: application/json` when no truthy
Content-Type is present and the body is a non-empty string. -/
def fetchWithAuthHeaders (token : Option String) (opts : FetchOptions) :
    String → Option String :=
  let h1 := match token with
    | some t => setHeader opts.headers "Authorization" ("Bearer " ++ t)
    | none => opts.headers
  if !jsTruthyStr (h1 "Content-Type") && bodyIsNonemptyString opts.body then
    setHeader h1 "Content-Type" "application/json"
  else h1

/-- One prediction object (`prediction` field of an engine response):
`numbers`, `tickets`, `fixed_numbers` are probed dynamically by the code, so
they are `Option`-valued (`none` = absent or not an array);
`number_source` stands for the extra fields a shallow copy carries along. -/
structure Prediction where
  numbers : Option (List Int)
  tickets : Option (List (List Int))
  fixed_numbers : Option (List Int)
  number_source : String
deriving DecidableEq

/-- A complete prediction record as it appears inside a `predictions` array
(shape (a) of the engine response). -/
structure Envelope where
  meta : String
  draw : String
  prediction : Option Prediction
  system : String
deriving DecidableEq

/-- Top-level JSON returned by `/engine/prediction`: may carry a
`predictions` array (shape (a)) and/or a single `prediction` object
(shapes (b)/(c)); `meta`/`draw`/`system` stand for the remaining fields
a shallow copy carries along. -/
structure EngineData where
  predictions : Option (List Envelope)
  prediction : Option Prediction
  meta : String
  draw : String
  system : String
deriving DecidableEq

/-- An HTTP response from the prediction engine; `body` is the parsed JSON,
`none` meaning `res.json()` rejected. -/
structure EngineResponse where
  status : Nat
  body : Option EngineData
deriving DecidableEq

/-- Everything `fetchWithAuth` produces: the decorated headers it sends,
the storage state and navigation it leaves behind, and its outcome
(`Except.error m` = the call threw an error with message `m`). -/
structure FetchWithAuthResult where
  sentHeaders : String → Option String
  storage : Storage
  navigation : Option String
  outcome : Except String EngineResponse

/-- `fetchWithAuth` (auth.js lines 47–66): decorate headers, perform the
fetch (its result is the explicit `net` argument, `Except.error m` being a
rejected transport promise), and on a 401 status remove the token and user,
navigate to `login.html`, and throw `Unauthorized`. -/
def fetchWithAuth (st : Storage) (opts : FetchOptions)
    (net : Except String EngineResponse) : FetchWithAuthResult :=
  let headers := fetchWithAuthHeaders st.access_token opts
  match net with
  | Except.error m => ⟨headers, st, none, Except.error m⟩
  | Except.ok res =>
    if res.status = 401 then
      ⟨headers, ⟨none, none⟩, some "login.html", Except.error "Unauthorized"⟩
    else
      ⟨headers, st, none, Except.ok res⟩

/-- Response of `GET /auth/me`; `body` is the parsed profile,
`none` meaning `res.json()` rejected. -/
structure MeResponse where
  status : Nat
  body : Option UserProfile
deriving DecidableEq

/-- Result of `requirePremium`: final storage, navigation target (if the
code assigned `window.location.href`), and the returned boolean. -/
structure RequirePremiumResult where
  storage : Storage
  navigation : Option String
  result : Bool
deriving DecidableEq

/-- `requirePremium` (auth.js lines 73–110): no token → login redirect,
false; transport failure (catch) → login redirect, false; 401 → clear
token and user, login redirect, false; other non-OK → login redirect,
false; JSON failure (catch) → login redirect, false; otherwise cache the
profile with `setUser`, then redirect to `login.html?status=unpaid` and
return false unless `is_premium`, in which case return true. -/
def requirePremium (st : Storage) (net : Except String MeResponse) :
    RequirePremiumResult :=
  match st.access_token with
  | none => ⟨st, some "login.html", false⟩
  | some _ =>
    match net with
    | Except.error _ => ⟨st, some "login.html", false⟩
    | Except.ok res =>
      if res.status = 401 then ⟨⟨none, none⟩, some "login.html", false⟩
      else if !statusOk res.status then ⟨st, some "login.html", false⟩
      else
        match res.body with
        | none => ⟨st, some "login.html", false⟩
        | some user =>
          if !user.is_premium then
            ⟨{ st with user := some user }, some "login.html?status=unpaid", false⟩
          else
            ⟨{ st with user := some user }, none, true⟩

/-- Claim C3: whenever the underlying fetch resolves with a 401 response,
`fetchWithAuth` clears the persisted access token and user profile,
navigates to the login page, and throws `Unauthorized` instead of
returning — for every prior storage state and every request options value
(method, headers, body). -/
theorem C3_fetchWithAuth_401 (st : Storage) (opts : FetchOptions)
    (res : EngineResponse) (h : res.status = 401) :
    (fetchWithAuth st opts (Except.ok res)).storage = ⟨none, none⟩ ∧
    (fetchWithAuth st opts (Except.ok res)).navigation = some "login.html" ∧
    (fetchWithAuth st opts (Except.ok res)).outcome = Except.error "Unauthorized" := by
  simp [fetchWithAuth, h]

theorem C3_fetchWithAuth_401_witness :
    (fetchWithAuth ⟨some "tok", some ⟨true⟩⟩ ⟨"POST", fun _ => none, some (JsBody.str "x")⟩
      (Except.ok ⟨401, none⟩)).storage = ⟨none, none⟩ ∧
    (fetchWithAuth ⟨some "tok", some ⟨true⟩⟩ ⟨"POST", fun _ => none, some (JsBody.str "x")⟩
      (Except.ok ⟨401, none⟩)).navigation = some "login.html" ∧
    (fetchWithAuth ⟨some "tok", some ⟨true⟩⟩ ⟨"POST", fun _ => none, some (JsBody.str "x")⟩
      (Except.ok ⟨401, none⟩)).outcome = Except.error "Unauthorized" :=
  C3_fetchWithAuth_401 ⟨some "tok", some ⟨true⟩⟩
    ⟨"POST", fun _ => none, some (JsBody.str "x")⟩ ⟨401, none⟩ rfl

/-- Claim C10 (implicit): for every response whose status is not 401
(and for every transport failure), `fetchWithAuth` leaves the persisted
session state unchanged and performs no navigation. -/
theorem C10_fetchWithAuth_frame (st : Storage) (opts : FetchOptions)
    (net : Except String EngineResponse)
    (h : ∀ res, net = Except.ok res → res.status ≠ 401) :
    (fetchWithAuth st opts net).storage = st ∧
    (fetchWithAuth st opts net).navigation = none := by
  cases net with
  | error m => simp [fetchWithAuth]
  | ok res => simp [fetchWithAuth, h res rfl]

theorem C10_fetchWithAuth_frame_witness :
    (fetchWithAuth ⟨some "tok", some ⟨true⟩⟩ ⟨"GET", fun _ => none, none⟩
      (Except.ok ⟨403, none⟩)).storage = ⟨some "tok", some ⟨true⟩⟩ ∧
    (fetchWithAuth ⟨some "tok", some ⟨true⟩⟩ ⟨"GET", fun _ => none, none⟩
      (Except.ok ⟨403, none⟩)).navigation = none :=
  C10_fetchWithAuth_frame ⟨some "tok", some ⟨true⟩⟩ ⟨"GET", fun _ => none, none⟩
    (Except.ok ⟨403, none⟩)
    (by intro res h; injection h with h2; subst h2; decide)

/-- Request options exhibiting a caller-supplied Authorization header. -/
def c8OptsAuth : FetchOptions :=
  ⟨"GET", fun name => if name = "Authorization" then some "Token abc" else none, none⟩

/-- Request options exhibiting a non-string body (e.g. `FormData`)
with no caller-specified Content-Type. -/
def c8OptsBody : FetchOptions := ⟨"POST", fun _ => none, some JsBody.nonString⟩

/-- Claim C8 counterexample: (1) with a persisted token, a caller-supplied
`Authorization` header is overwritten with `Bearer <token>`, so not every
caller-supplied header is preserved unchanged; (2) a request with a
non-string body and no Content-Type gets no `Content-Type: application/json`
header, although the claim requires one whenever the request has a body. -/
theorem C8_counterexample :
    fetchWithAuthHeaders (some "tok") c8OptsAuth "Authorization" = some "Bearer tok" ∧
    c8OptsAuth.headers "Authorization" = some "Token abc" ∧
    (some "Bearer tok" : Option String) ≠ some "Token abc" ∧
    c8OptsBody.body = some JsBody.nonString ∧
    fetchWithAuthHeaders none c8OptsBody "Content-Type" = none :=
  ⟨rfl, rfl, by decide, rfl, rfl⟩

/-- Claim C8, amended: the outgoing headers of `fetchWithAuth` are the
caller's headers, except that `Authorization` is set to `Bearer <token>`
whenever a token is persisted (overwriting any caller-supplied value; with
no token the caller's Authorization header, if any, is kept), and
`Content-Type` is set to `application/json` exactly when the caller
supplied no truthy Content-Type and the body is a non-empty string
(non-string and empty-string bodies get no added Content-Type); every
other caller-supplied header is preserved unchanged. -/
theorem C8_amended_headers (token : Option String) (opts : FetchOptions) (name : String) :
    fetchWithAuthHeaders token opts name =
      if name = "Authorization" then
        match token with
        | some t => some ("Bearer " ++ t)
        | none => opts.headers name
      else if name = "Content-Type" then
        if !jsTruthyStr (opts.headers "Content-Type") && bodyIsNonemptyString opts.body then
          some "application/json"
        else opts.headers name
      else opts.headers name := by
  simp only [fetchWithAuthHeaders, setHeader]
  cases token <;> split_ifs <;> simp_all [setHeader]

/-- Claim C9: `requirePremium` returns true exactly when a token is present,
the profile endpoint responded with an OK status, the profile parsed, and
its `is_premium` flag is true; moreover, whenever an OK response with a
parsed profile is reached, that profile is cached into storage before the
premium check (so it is cached even when the premium check then fails). -/
theorem C9_requirePremium (st : Storage) (net : Except String MeResponse) :
    ((requirePremium st net).result = true ↔
      (st.access_token.isSome = true ∧ ∃ res user, net = Except.ok res ∧
        statusOk res.status = true ∧ res.body = some user ∧ user.is_premium = true)) ∧
    (∀ res user, st.access_token.isSome = true → net = Except.ok res →
      statusOk res.status = true → res.body = some user →
      (requirePremium st net).storage.user = some user) := by
  have h401 : ∀ s : Nat, statusOk s = true → s ≠ 401 := by
    intro s hs
    have := of_decide_eq_true hs
    omega
  constructor
  · constructor
    · intro h
      cases htok : st.access_token with
      | none => simp [requirePremium, htok] at h
      | some t =>
        cases net with
        | error m => simp [requirePremium, htok] at h
        | ok res =>
          refine ⟨by simp [htok], res, ?_⟩
          by_cases hs : res.status = 401
          · simp [requirePremium, htok, hs] at h
          · by_cases hok : statusOk res.status
            · cases hb : res.body with
              | none => simp [requirePremium, htok, hs, hok, hb] at h
              | some user =>
                by_cases hp : user.is_premium
                · exact ⟨user, rfl, by simpa using hok, rfl, by simpa using hp⟩
                · simp [requirePremium, htok, hs, hok, hb, hp] at h
            · simp [requirePremium, htok, hs, (by simpa using hok : statusOk res.status = false)] at h
    · rintro ⟨htok, res, user, rfl, hok, hb, hp⟩
      cases htok' : st.access_token with
      | none => rw [htok'] at htok; simp at htok
      | some t =>
        simp [requirePremium, htok', h401 res.status hok, hok, hb, hp]
  · intro res user htok hnet hok hb
    subst hnet
    cases htok' : st.access_token with
    | none => rw [htok'] at htok; simp at htok
    | some t =>
      by_cases hp : user.is_premium <;>
        simp [requirePremium, htok', h401 res.status hok, hok, hb, hp]

theorem C9_requirePremium_witness :
    (requirePremium ⟨some "tok", none⟩ (Except.ok ⟨200, some ⟨true⟩⟩)).result = true :=
  (C9_requirePremium ⟨some "tok", none⟩ (Except.ok ⟨200, some ⟨true⟩⟩)).1.mpr
    ⟨rfl, ⟨200, some ⟨true⟩⟩, ⟨true⟩, rfl, by decide, rfl, rfl⟩

/-- The normalized value `fetchPredictionsFromEngine` resolves with:
either the `predictions` array (shape (a)) or the single envelope
returned un-duplicated (shape (b)/(c)). -/
inductive PredPayload
  | arr (l : List Envelope)
  | single (d : EngineData)
deriving DecidableEq

/-- `fetchPredictionsFromEngine` (loto6-logic.js lines 198–232,
loto7-logic.js lines 187–213), downstream of `fetchWithAuth` whose result
is the `net` argument: status 403 → throw `PREMIUM_REQUIRED`; other
non-OK status → throw `Engine error: <status>`; then parse the JSON
(`JsonParseError` standing for a rejected `res.json()`); a `predictions`
array is returned as-is; otherwise a truthy `prediction.numbers` returns
the whole payload without duplication; otherwise throw
`Invalid response shape`. -/
def fetchPredictionsFromEngine (net : Except String EngineResponse) :
    Except String PredPayload :=
  match net with
  | Except.error m => Except.error m
  | Except.ok res =>
    if res.status = 403 then Except.error "PREMIUM_REQUIRED"
    else if !statusOk res.status then
      Except.error ("Engine error: " ++ toString res.status)
    else
      match res.body with
      | none => Except.error "JsonParseError"
      | some data =>
        match data.predictions with
        | some l => Except.ok (PredPayload.arr l)
        | none =>
          match data.prediction with
          | some p =>
            match p.numbers with
            | some _ => Except.ok (PredPayload.single data)
            | none => Except.error "Invalid response shape"
          | none => Except.error "Invalid response shape"

/-- `fetchFortuneOnce` (loto7-fortune.js lines 170–191): same 403 and
non-OK handling, then the payload is accepted exactly when
`Array.isArray(data?.prediction?.tickets)` holds, otherwise it throws
`Invalid response: prediction.tickets is missing`. -/
def fetchFortuneOnce (net : Except String EngineResponse) :
    Except String EngineData :=
  match net with
  | Except.error m => Except.error m
  | Except.ok res =>
    if res.status = 403 then Except.error "PREMIUM_REQUIRED"
    else if !statusOk res.status then
      Except.error ("Engine error: " ++ toString res.status)
    else
      match res.body with
      | none => Except.error "JsonParseError"
      | some data =>
        match data.prediction with
        | some p =>
          match p.tickets with
          | some _ => Except.ok data
          | none => Except.error "Invalid response: prediction.tickets is missing"
        | none => Except.error "Invalid response: prediction.tickets is missing"

/-- Body of `GET /draw/latest` (round and draw date, probed dynamically). -/
structure DrawData where
  round : Option Int
  draw_date : Option String
deriving DecidableEq

/-- An HTTP response of `/draw/latest`; `body` is the parsed JSON,
`none` meaning `res.json()` rejected. -/
structure DrawResponse where
  status : Nat
  body : Option DrawData
deriving DecidableEq

/-- `fetchLatestDraw` of loto7-logic.js (lines 57–74): throws
`draw/latest error: <status>` on every non-OK status before parsing. -/
def fetchLatestDraw7 (net : Except String DrawResponse) :
    Except String DrawData :=
  match net with
  | Except.error m => Except.error m
  | Except.ok res =>
    if !statusOk res.status then
      Except.error ("draw/latest error: " ++ toString res.status)
    else
      match res.body with
      | none => Except.error "JsonParseError"
      | some d => Except.ok d

/-- `fetchLatestDraw` of loto6-logic.js (lines 185–195): parses the body
directly, with no `res.ok` check — a non-2xx status with a parseable body
resolves normally. -/
def fetchLatestDraw6 (net : Except String DrawResponse) :
    Except String DrawData :=
  match net with
  | Except.error m => Except.error m
  | Except.ok res =>
    match res.body with
    | none => Except.error "JsonParseError"
    | some d => Except.ok d

/-- User-visible terminal rendering of one issuance attempt. -/
inductive Display
  | success (p : PredPayload)
  | genericError
  | paywall
deriving DecidableEq

/-- Terminal state of the loto6 click handler: what was rendered, whether
the trigger button is left disabled, and whether the prediction fetch was
reached at all. -/
structure ClickResult where
  display : Display
  buttonDisabled : Bool
  attemptedPrediction : Bool
deriving DecidableEq

/-- The `catch` block of the click handlers: paywall exactly when the
thrown error's message is the exact string `PREMIUM_REQUIRED`, otherwise
the fixed generic error message. -/
def classifyCatch (m : String) : Display :=
  if m = "PREMIUM_REQUIRED" then Display.paywall else Display.genericError

/-- The loto6-logic.js issue-button click handler (lines 143–170):
`await fetchLatestDraw()` first — a throw skips prediction issuance and
lands in `catch` — then `await fetchPredictionsFromEngine(count)`, then
render; every terminal path re-enables the trigger
(`setButtonLoading(false)` in `showPredictions`-success, `showError` and
`showPremiumWall`). -/
def loto6Click (drawNet : Except String DrawResponse)
    (predNet : Except String EngineResponse) : ClickResult :=
  match fetchLatestDraw6 drawNet with
  | Except.error m => ⟨classifyCatch m, false, false⟩
  | Except.ok _ =>
    match fetchPredictionsFromEngine predNet with
    | Except.error m => ⟨classifyCatch m, false, true⟩
    | Except.ok p => ⟨Display.success p, false, true⟩

/-- No `Engine error: <status>` message ever equals the
`PREMIUM_REQUIRED` sentinel, whatever the status digits are. -/
theorem engine_error_msg_ne_sentinel (t : String) :
    "Engine error: " ++ t ≠ "PREMIUM_REQUIRED" := by
  obtain ⟨l⟩ := t
  intro h
  have h2 : 'E' :: ("ngine error: ".data ++ l) = 'P' :: "REMIUM_REQUIRED".data :=
    congrArg String.data h
  injection h2 with h3 _
  exact absurd h3 (by decide)

/-- Claim C4: a 403 status makes the prediction client fail with the
`PREMIUM_REQUIRED` sentinel whatever the body is; the click handler routes
that failure to the paywall rendering with the trigger re-armed and the
draw already fetched; and among all failures the prediction client produces
from a resolved response, the sentinel message occurs exactly for
status 403, so exact-identity classification never sends it to the generic
error (nor any other failure to the paywall). -/
theorem C4_premium_paywall (drawNet : Except String DrawResponse)
    (res : EngineResponse)
    (hdraw : ∃ d, fetchLatestDraw6 drawNet = Except.ok d)
    (h403 : res.status = 403) :
    loto6Click drawNet (Except.ok res) = ⟨Display.paywall, false, true⟩ ∧
    fetchPredictionsFromEngine (Except.ok res) = Except.error "PREMIUM_REQUIRED" ∧
    (∀ r m, fetchPredictionsFromEngine (Except.ok r) = Except.error m →
      (m = "PREMIUM_REQUIRED" ↔ r.status = 403)) := by
  obtain ⟨d, hd⟩ := hdraw
  have hpred : fetchPredictionsFromEngine (Except.ok res) =
      Except.error "PREMIUM_REQUIRED" := by
    simp [fetchPredictionsFromEngine, h403]
  refine ⟨?_, hpred, ?_⟩
  · simp [loto6Click, hd, hpred, classifyCatch]
  · intro r m h
    by_cases h4 : r.status = 403
    · simp only [fetchPredictionsFromEngine, if_pos h4] at h
      injection h with h5
      exact ⟨fun _ => h4, fun _ => h5.symm⟩
    · refine ⟨fun hm => ?_, fun hc => absurd hc h4⟩
      exfalso
      subst hm
      simp only [fetchPredictionsFromEngine, if_neg h4] at h
      repeat' split at h
      all_goals
        first
        | exact engine_error_msg_ne_sentinel (toString r.status) (Except.error.inj h)
        | exact absurd (Except.error.inj h) (by decide)
        | exact Except.noConfusion h

/-- Draw body used to exercise the C4 pipeline. -/
def c4Draw : DrawData := ⟨some 1894, some "2026-02-01"⟩

theorem C4_premium_paywall_witness :
    loto6Click (Except.ok ⟨200, some c4Draw⟩) (Except.ok ⟨403, none⟩) =
      ⟨Display.paywall, false, true⟩ :=
  (C4_premium_paywall (Except.ok ⟨200, some c4Draw⟩) ⟨403, none⟩
    ⟨c4Draw, rfl⟩ rfl).1

/-- A successful payload exhibiting `prediction.tickets` but neither a
`predictions` array nor `prediction.numbers`. -/
def ticketsOnlyData : EngineData :=
  ⟨none, some ⟨none, some [[1, 2, 3]], none, ""⟩, "", "", ""⟩

/-- Claim C5 counterexample: the loto6/loto7-logic normalization throws
`Invalid response shape` on an OK response whose payload carries
`prediction.tickets` (but no `predictions` array and no
`prediction.numbers`), although the claim says every payload exhibiting at
least one of the three fields is accepted. -/
theorem C5_counterexample :
    fetchPredictionsFromEngine (Except.ok ⟨200, some ticketsOnlyData⟩) =
      Except.error "Invalid response shape" ∧
    ticketsOnlyData.prediction = some ⟨none, some [[1, 2, 3]], none, ""⟩ ∧
    statusOk 200 = true :=
  ⟨rfl, rfl, rfl⟩

/-- Claim C5, amended: on an OK, parseable response, the loto6/loto7-logic
normalization succeeds exactly when the payload has a `predictions` array
or a present `prediction.numbers`, and fails with `Invalid response shape`
exactly otherwise — a `prediction.tickets` field alone does not prevent the
error; the loto7-fortune client instead accepts exactly when
`prediction.tickets` is an array. -/
theorem C5_amended_shape (res : EngineResponse) (data : EngineData)
    (hok : statusOk res.status = true) (hbody : res.body = some data) :
    ((∃ p, fetchPredictionsFromEngine (Except.ok res) = Except.ok p) ↔
      (data.predictions.isSome = true ∨
        ∃ pr, data.prediction = some pr ∧ pr.numbers.isSome = true)) ∧
    (fetchPredictionsFromEngine (Except.ok res) = Except.error "Invalid response shape" ↔
      ¬(data.predictions.isSome = true ∨
        ∃ pr, data.prediction = some pr ∧ pr.numbers.isSome = true)) ∧
    (fetchFortuneOnce (Except.ok res) = Except.ok data ↔
      ∃ pr, data.prediction = some pr ∧ pr.tickets.isSome = true) := by
  have h403 : res.status ≠ 403 := by
    intro h
    rw [h] at hok
    exact absurd (of_decide_eq_true hok).2 (by omega)
  simp only [fetchPredictionsFromEngine, fetchFortuneOnce, if_neg h403, hbody]
  rcases data with ⟨preds, pred, m1, d1, s1⟩
  rcases pred with _ | p
  · rcases preds with _ | l <;> simp [hok]
  · rcases hn : p.numbers with _ | ns <;>
      rcases ht : p.tickets with _ | ts <;>
      rcases preds with _ | l <;>
      simp [hn, ht, hok]

theorem C5_amended_shape_witness :
    fetchFortuneOnce (Except.ok ⟨200, some ticketsOnlyData⟩) =
      Except.ok ticketsOnlyData :=
  (C5_amended_shape ⟨200, some ticketsOnlyData⟩ ticketsOnlyData (by decide) rfl).2.2.mpr
    ⟨⟨none, some [[1, 2, 3]], none, ""⟩, rfl, rfl⟩

/-- Draw body used to exhibit the missing `res.ok` check in loto6. -/
def c6Draw : DrawData := ⟨some 1894, some "2026-02-01"⟩

/-- Claim C6 counterexample: loto6-logic.js `fetchLatestDraw` performs no
`res.ok` check, so a 500 response with a parseable JSON body resolves
normally instead of rejecting, and the click handler then goes on to
attempt prediction issuance. -/
theorem C6_counterexample :
    fetchLatestDraw6 (Except.ok ⟨500, some c6Draw⟩) = Except.ok c6Draw ∧
    statusOk 500 = false ∧
    (loto6Click (Except.ok ⟨500, some c6Draw⟩)
      (Except.error "boom")).attemptedPrediction = true :=
  ⟨rfl, rfl, rfl⟩

/-- Claim C6, amended: the loto7-logic `fetchLatestDraw` rejects on every
transport failure and on every non-2xx status; the loto6-logic
`fetchLatestDraw` rejects only on transport or JSON-parse failure and
resolves on any status whose body parses; and when the loto6 draw fetch
does fail, the click handler shows the fixed generic error message and
never reaches prediction issuance. -/
theorem C6_amended_drawFetch :
    (∀ m, fetchLatestDraw7 (Except.error m) = Except.error m) ∧
    (∀ res : DrawResponse, statusOk res.status = false →
      fetchLatestDraw7 (Except.ok res) =
        Except.error ("draw/latest error: " ++ toString res.status)) ∧
    (∀ (res : DrawResponse) (d : DrawData), res.body = some d →
      fetchLatestDraw6 (Except.ok res) = Except.ok d) ∧
    (∀ drawNet predNet m, fetchLatestDraw6 drawNet = Except.error m →
      m ≠ "PREMIUM_REQUIRED" →
      loto6Click drawNet predNet = ⟨Display.genericError, false, false⟩) := by
  refine ⟨fun m => rfl, fun res h => ?_, fun res d h => ?_, fun drawNet predNet m h hm => ?_⟩
  · simp only [fetchLatestDraw7]
    rw [if_pos (by rw [h]; rfl)]
  · simp [fetchLatestDraw6, h]
  · simp [loto6Click, h, classifyCatch, hm]

theorem C6_amended_drawFetch_witness :
    loto6Click (Except.error "NetworkError") (Except.ok ⟨200, none⟩) =
      ⟨Display.genericError, false, false⟩ :=
  C6_amended_drawFetch.2.2.2 (Except.error "NetworkError") (Except.ok ⟨200, none⟩)
    "NetworkError" rfl (by decide)

/-- `json.prediction || {}` — the empty prediction object every field probe
misses on. -/
def defaultPrediction : Prediction := ⟨none, none, none, ""⟩

/-- A rendered record of the loto7-logic `showPredictions`: either an
element of a shape-(a) array (future use) or a synthesized shallow copy of
the single envelope. -/
inductive RecordOut
  | env (e : Envelope)
  | data (d : EngineData)
deriving DecidableEq

/-- `showPredictions` of loto7-logic.js (lines 112–149): an array payload
is rendered as-is; a single envelope has `prediction.tickets` (or, when
that is absent or empty, the one-element list `[prediction.numbers || []]`)
sliced to the first `count` entries, each mapped to a shallow copy
`{...json, prediction: {...pred, numbers: nums, fixed_numbers: fixed}}`. -/
def showPredictions (payload : PredPayload) (count : Nat) : List RecordOut :=
  match payload with
  | PredPayload.arr l => l.map RecordOut.env
  | PredPayload.single json =>
    let pred := json.prediction.getD defaultPrediction
    let tickets := pred.tickets.getD []
    let fixed := pred.fixed_numbers.getD []
    let baseTickets := if tickets.length ≠ 0 then tickets else [pred.numbers.getD []]
    let slice := baseTickets.take count
    slice.map (fun nums =>
      RecordOut.data { json with
        prediction := some { pred with numbers := some nums, fixed_numbers := some fixed } })

/-- Claim C1: for a single-envelope payload whose `prediction.tickets` is a
(non-empty) list and whose `prediction.fixed_numbers` is a list, the
rendered record list has `min (length tickets) n` entries, the i-th being
the shallow copy of the envelope with `prediction.numbers` replaced by the
i-th ticket and `prediction.fixed_numbers` carried through unchanged (only
the first `n` tickets are used); when `tickets` is absent or empty, a
single record built from `prediction.numbers` is produced. -/
theorem C1_showPredictions_explode (json : EngineData) (pred : Prediction)
    (f : List Int) (n : Nat)
    (hp : json.prediction = some pred) (hf : pred.fixed_numbers = some f) :
    (∀ ts, pred.tickets = some ts → ts ≠ [] →
      (showPredictions (PredPayload.single json) n).length = min ts.length n ∧
      ∀ i : Nat, (showPredictions (PredPayload.single json) n)[i]? =
        ((ts.take n)[i]?).map (fun nums =>
          RecordOut.data { json with
            prediction := some
              { pred with numbers := some nums, fixed_numbers := some f } })) ∧
    ((pred.tickets = none ∨ pred.tickets = some []) → 1 ≤ n →
      showPredictions (PredPayload.single json) n =
        [RecordOut.data { json with
          prediction := some { pred with
            numbers := some (pred.numbers.getD [])
            fixed_numbers := some f } }]) := by
  constructor
  · intro ts hts hne
    have hlen : ts.length ≠ 0 := by simpa [List.length_eq_zero] using hne
    constructor
    · simp [showPredictions, hp, hts, hf, hlen, Nat.min_comm]
    · intro i
      simp [showPredictions, hp, hts, hf, hlen, List.getElem?_take, apply_ite]
      split_ifs with h1
      · intro h2
        exact absurd h2 (by omega)
      · intro h2
        omega
  · intro hts hn
    obtain ⟨m, rfl⟩ : ∃ m, n = m + 1 := ⟨n - 1, by omega⟩
    rcases hts with hts | hts <;> simp [showPredictions, hp, hts, hf]

/-- The shape-(b) payload of the spec's worked example:
`tickets = [[1,2,3],[4,5,6]]`, `fixed_numbers = [1]`. -/
def c1Pred : Prediction := ⟨some [7, 8, 9], some [[1, 2, 3], [4, 5, 6]], some [1], "src"⟩

/-- Envelope wrapping `c1Pred`. -/
def c1Json : EngineData := ⟨none, some c1Pred, "meta", "draw", "system"⟩

theorem C1_showPredictions_explode_witness :
    (showPredictions (PredPayload.single c1Json) 2).length = min 2 2 ∧
    (showPredictions (PredPayload.single c1Json) 2)[0]? =
      some (RecordOut.data ⟨none,
        some ⟨some [1, 2, 3], some [[1, 2, 3], [4, 5, 6]], some [1], "src"⟩,
        "meta", "draw", "system"⟩) :=
  ⟨((C1_showPredictions_explode c1Json c1Pred [1] 2 rfl rfl).1
      [[1, 2, 3], [4, 5, 6]] rfl (by decide)).1,
   by
    have h := ((C1_showPredictions_explode c1Json c1Pred [1] 2 rfl rfl).1
      [[1, 2, 3], [4, 5, 6]] rfl (by decide)).2 0
    simpa [c1Json, c1Pred] using h⟩

/-- A JavaScript number as `clampInt` can receive it: `NaN`, `±Infinity`,
or a finite value (every finite IEEE double is rational). -/
inductive JsNum
  | nan
  | posInf
  | negInf
  | num (q : ℚ)

/-- `Math.trunc` on a finite value: round toward zero. -/
def jsTrunc (q : ℚ) : Int := if 0 ≤ q then ⌊q⌋ else ⌈q⌉

/-- `clampInt` (loto6-logic.js lines 350–353, loto7-logic.js lines
332–335, loto7-fortune.js lines 217–220): `Number.isFinite(n)` is false
for `NaN` and `±Infinity`, in which case `min` is returned; otherwise
`Math.max(min, Math.min(max, Math.trunc(n)))`. -/
def clampInt (n : JsNum) (mn mx : Int) : Int :=
  match n with
  | JsNum.num q => max mn (min mx (jsTrunc q))
  | _ => mn

/-- The JavaScript comparison `x > c` (false for `NaN`, true for
`+Infinity` against any finite bound). -/
def jsGtNum (x : JsNum) (c : Int) : Bool :=
  match x with
  | JsNum.nan => false
  | JsNum.posInf => true
  | JsNum.negInf => false
  | JsNum.num q => decide ((c : ℚ) < q)

/-- Truncation fixes integers. -/
theorem jsTrunc_intCast (k : Int) : jsTrunc (k : ℚ) = k := by
  unfold jsTrunc
  split <;> simp

/-- Claim C7 counterexample: `+Infinity` exceeds the upper bound 100
(`jsGtNum` is the JS comparison), so per the claim it should snap to the
nearest bound, 100; but `Number.isFinite` fails first and `clampInt`
returns the lower bound 1. -/
theorem C7_counterexample :
    clampInt JsNum.posInf 1 100 = 1 ∧
    jsGtNum JsNum.posInf 100 = true ∧
    (1 : Int) ≠ 100 :=
  ⟨rfl, rfl, by decide⟩

/-- Claim C7, amended: `clampInt(Number(x), 1, 100)` always lies in
[1,100] and is idempotent; a finite in-range input is truncated toward
zero; a finite input below 1 snaps to 1 and a finite input above 100
snaps to 100 (the nearest bound); every non-finite input (`NaN`,
`+Infinity`, `-Infinity`) yields the lower bound 1 — not necessarily the
nearest bound. -/
theorem C7_clampInt_amended (x : JsNum) :
    (1 ≤ clampInt x 1 100 ∧ clampInt x 1 100 ≤ 100) ∧
    clampInt (JsNum.num ((clampInt x 1 100 : Int) : ℚ)) 1 100 = clampInt x 1 100 ∧
    (∀ q : ℚ, x = JsNum.num q → (1 : ℚ) ≤ q → q ≤ 100 → clampInt x 1 100 = jsTrunc q) ∧
    (∀ q : ℚ, x = JsNum.num q → q < 1 → clampInt x 1 100 = 1) ∧
    (∀ q : ℚ, x = JsNum.num q → 100 < q → clampInt x 1 100 = 100) ∧
    ((x = JsNum.nan ∨ x = JsNum.posInf ∨ x = JsNum.negInf) → clampInt x 1 100 = 1) := by
  have hbounds : ∀ y : JsNum, 1 ≤ clampInt y 1 100 ∧ clampInt y 1 100 ≤ 100 := by
    intro y
    cases y with
    | num q =>
      simp only [clampInt]
      exact ⟨le_max_left _ _, max_le (by norm_num) (min_le_left _ _)⟩
    | nan => exact ⟨by decide, by decide⟩
    | posInf => exact ⟨by decide, by decide⟩
    | negInf => exact ⟨by decide, by decide⟩
  refine ⟨hbounds x, ?_, ?_, ?_, ?_, ?_⟩
  · obtain ⟨h1, h2⟩ := hbounds x
    generalize hr : clampInt x 1 100 = r at h1 h2 ⊢
    simp only [clampInt, jsTrunc_intCast]
    rw [min_eq_right h2]
    exact max_eq_right h1
  · intro q hx h1 h100
    subst hx
    have h0 : (0 : ℚ) ≤ q := le_trans (by norm_num) h1
    have ht : jsTrunc q = ⌊q⌋ := by unfold jsTrunc; rw [if_pos h0]
    have hfl : 1 ≤ ⌊q⌋ := by
      rw [show (1 : Int) = ⌊(1 : ℚ)⌋ from by norm_num]
      exact Int.floor_le_floor h1
    have hfu : ⌊q⌋ ≤ 100 := by
      rw [show (100 : Int) = ⌊(100 : ℚ)⌋ from by norm_num]
      exact Int.floor_le_floor h100
    simp only [clampInt]
    rw [ht, min_eq_right hfu]
    exact max_eq_right hfl
  · intro q hx hq
    subst hx
    have ht : jsTrunc q ≤ 0 := by
      unfold jsTrunc
      split
      · have : ⌊q⌋ < 1 := Int.floor_lt.mpr (by exact_mod_cast hq)
        omega
      · exact Int.ceil_le.mpr (le_of_lt (lt_of_not_ge (by assumption)))
    simp only [clampInt]
    rw [min_eq_right (le_trans ht (by norm_num))]
    exact max_eq_left (le_trans ht (by norm_num))
  · intro q hx hq
    subst hx
    have h0 : (0 : ℚ) ≤ q := le_trans (by norm_num) (le_of_lt hq)
    have ht : jsTrunc q = ⌊q⌋ := by unfold jsTrunc; rw [if_pos h0]
    have hfl : 100 ≤ ⌊q⌋ := Int.le_floor.mpr (by exact_mod_cast le_of_lt hq)
    simp only [clampInt]
    rw [ht, min_eq_left hfl]
    exact max_eq_right (by norm_num)
  · rintro (rfl | rfl | rfl) <;> rfl

theorem C7_clampInt_amended_witness :
    clampInt (JsNum.num ((205 : ℚ) / 2)) 1 100 = 100 :=
  (C7_clampInt_amended (JsNum.num ((205 : ℚ) / 2))).2.2.2.2.1 ((205 : ℚ) / 2) rfl
    (by norm_num)

/-- `set.add(x)` on a JS `Set`, viewed as its insertion-ordered,
duplicate-free element list. -/
def jsSetAdd (s : List Int) (x : Int) : List Int := if x ∈ s then s else s ++ [x]

/-- `new Set(fixedNumbers || [])`: left fold of `add` from the empty set. -/
def jsSetOfList (l : List Int) : List Int := l.foldl jsSetAdd []

/-- The loop `while (set.size < total) set.add(randInt(min, max))`:
`draw k` is the value returned by the k-th `randInt(min, max)` call, and
`fuel` bounds the number of iterations we unroll (`none` = the loop has
not finished within `fuel` draws; the JS loop just keeps drawing). -/
def genLoop (total : Nat) (draw : Nat → Int) : Nat → Nat → List Int → Option (List Int)
  | 0, _, s => if s.length < total then none else some s
  | fuel + 1, k, s =>
    if s.length < total then genLoop total draw fuel (k + 1) (jsSetAdd s (draw k))
    else some s

/-- `Array.from(set).sort((a, b) => a - b)`: numeric ascending sort. -/
def sortAsc (l : List Int) : List Int := List.insertionSort (· ≤ ·) l

/-- `generateUniqueNumbersWithFixed({min, max, total, fixedNumbers})`
(loto6-logic.js lines 338–344, loto7-logic.js lines 320–326).  The
`min`/`max` parameters reach the code only through `randInt(min, max)`,
whose successive results are the `draw` argument here (their range is a
hypothesis of the theorems). -/
def generateUniqueNumbersWithFixed (mn mx : Int) (total : Nat)
    (fixedNumbers : List Int) (draw : Nat → Int) (fuel : Nat) : Option (List Int) :=
  (genLoop total draw fuel 0 (jsSetOfList fixedNumbers)).map sortAsc

theorem jsSetAdd_nodup {s : List Int} {x : Int} (h : s.Nodup) :
    (jsSetAdd s x).Nodup := by
  unfold jsSetAdd
  split
  · exact h
  · next hx => simp [List.nodup_append, h, hx]

theorem mem_jsSetAdd {s : List Int} {x y : Int} :
    y ∈ jsSetAdd s x ↔ y ∈ s ∨ y = x := by
  unfold jsSetAdd
  split
  · next hx =>
    constructor
    · exact Or.inl
    · rintro (h | rfl)
      · exact h
      · exact hx
  · simp

theorem jsSetAdd_length (s : List Int) (x : Int) :
    (jsSetAdd s x).length ≤ s.length + 1 := by
  unfold jsSetAdd
  split <;> simp

theorem foldl_jsSetAdd_of_nodup :
    ∀ (l acc : List Int), (acc ++ l).Nodup → l.foldl jsSetAdd acc = acc ++ l := by
  intro l
  induction l with
  | nil => intro acc _; simp
  | cons x xs ih =>
    intro acc h
    have hx : x ∉ acc := by
      intro hmem
      obtain ⟨_, _, hdisj⟩ := List.nodup_append.mp h
      exact hdisj hmem (by simp)
    have h2 : ((acc ++ [x]) ++ xs).Nodup := by
      simpa [List.append_assoc] using h
    simp only [List.foldl_cons]
    rw [show jsSetAdd acc x = acc ++ [x] from by unfold jsSetAdd; rw [if_neg hx]]
    rw [ih (acc ++ [x]) h2]
    simp

theorem jsSetOfList_eq_self {l : List Int} (h : l.Nodup) : jsSetOfList l = l := by
  unfold jsSetOfList
  simpa using foldl_jsSetAdd_of_nodup l [] (by simpa using h)

/-- Loop invariant of `genLoop`: starting from a duplicate-free,
in-range set no larger than `total`, a terminating run is duplicate-free,
in range, of size exactly `total`, and contains the starting set. -/
theorem genLoop_spec (total : Nat) (draw : Nat → Int) (mn mx : Int)
    (hdraw : ∀ k, mn ≤ draw k ∧ draw k ≤ mx) :
    ∀ (fuel k : Nat) (s r : List Int), s.Nodup → (∀ x ∈ s, mn ≤ x ∧ x ≤ mx) →
      s.length ≤ total → genLoop total draw fuel k s = some r →
      r.Nodup ∧ r.length = total ∧ (∀ x ∈ r, mn ≤ x ∧ x ≤ mx) ∧ ∀ x ∈ s, x ∈ r := by
  intro fuel
  induction fuel with
  | zero =>
    intro k s r hnd hrange hlen h
    simp only [genLoop] at h
    split at h
    · exact Option.noConfusion h
    · next hge =>
      obtain rfl : s = r := Option.some.inj h
      exact ⟨hnd, by omega, hrange, fun x hx => hx⟩
  | succ fuel ih =>
    intro k s r hnd hrange hlen h
    simp only [genLoop] at h
    split at h
    · have hnd' : (jsSetAdd s (draw k)).Nodup := jsSetAdd_nodup hnd
      have hrange' : ∀ x ∈ jsSetAdd s (draw k), mn ≤ x ∧ x ≤ mx := by
        intro x hx
        rcases mem_jsSetAdd.mp hx with hx | rfl
        · exact hrange x hx
        · exact hdraw k
      have hlen' : (jsSetAdd s (draw k)).length ≤ total := by
        have := jsSetAdd_length s (draw k)
        omega
      obtain ⟨h1, h2, h3, h4⟩ := ih (k + 1) _ r hnd' hrange' hlen' h
      exact ⟨h1, h2, h3, fun x hx => h4 x (mem_jsSetAdd.mpr (Or.inl hx))⟩
    · next hge =>
      obtain rfl : s = r := Option.some.inj h
      exact ⟨hnd, by omega, hrange, fun x hx => hx⟩

/-- When the set already has `total` elements the loop exits at once,
whatever the fuel and the draws. -/
theorem genLoop_of_full (total : Nat) (draw : Nat → Int) (k : Nat)
    (s : List Int) (h : ¬s.length < total) :
    ∀ fuel, genLoop total draw fuel k s = some s := by
  intro fuel
  cases fuel <;> simp [genLoop, h]

/-- Claim C2: for mutually distinct, in-range fixed numbers with
`len(fixedNumbers) ≤ total` and a range at least `total` wide, every
terminating run of `generateUniqueNumbersWithFixed` (draws in range)
returns exactly `total` distinct integers, each in `[min, max]`, sorted
ascending, containing every fixed number; and when
`len(fixedNumbers) = total` it returns the fixed set itself in ascending
order for every draw sequence and fuel, consuming no random draws. -/
theorem C2_generateUniqueNumbersWithFixed (mn mx : Int) (total : Nat)
    (fixedNumbers : List Int) (draw : Nat → Int) (fuel : Nat) (r : List Int)
    (hnd : fixedNumbers.Nodup)
    (hfix : ∀ x ∈ fixedNumbers, mn ≤ x ∧ x ≤ mx)
    (hlen : fixedNumbers.length ≤ total)
    (hspan : (total : Int) ≤ mx - mn + 1)
    (hdraw : ∀ k, mn ≤ draw k ∧ draw k ≤ mx)
    (hres : generateUniqueNumbersWithFixed mn mx total fixedNumbers draw fuel = some r) :
    (r.length = total ∧ r.Nodup ∧ (∀ x ∈ r, mn ≤ x ∧ x ≤ mx) ∧
      r.Sorted (· ≤ ·) ∧ ∀ x ∈ fixedNumbers, x ∈ r) ∧
    (fixedNumbers.length = total →
      r = sortAsc fixedNumbers ∧
      ∀ (draw2 : Nat → Int) (fuel2 : Nat),
        generateUniqueNumbersWithFixed mn mx total fixedNumbers draw2 fuel2 =
          some (sortAsc fixedNumbers)) := by
  unfold generateUniqueNumbersWithFixed at hres
  rw [jsSetOfList_eq_self hnd] at hres
  obtain ⟨r0, hr0, rfl⟩ :
      ∃ r0, genLoop total draw fuel 0 fixedNumbers = some r0 ∧ sortAsc r0 = r := by
    cases hg : genLoop total draw fuel 0 fixedNumbers with
    | none => rw [hg] at hres; exact Option.noConfusion hres
    | some r0 => rw [hg] at hres; exact ⟨r0, rfl, Option.some.inj hres⟩
  obtain ⟨h1, h2, h3, h4⟩ :=
    genLoop_spec total draw mn mx hdraw fuel 0 fixedNumbers r0 hnd hfix hlen hr0
  have hperm : List.Perm (sortAsc r0) r0 := List.perm_insertionSort _ _
  have hsorted : (sortAsc r0).Sorted (· ≤ ·) := List.sorted_insertionSort _ _
  refine ⟨⟨by rw [hperm.length_eq]; exact h2, hperm.nodup_iff.mpr h1,
    fun x hx => h3 x (hperm.mem_iff.mp hx), hsorted,
    fun x hx => hperm.mem_iff.mpr (h4 x hx)⟩, ?_⟩
  intro hfl
  have hfull : ¬fixedNumbers.length < total := by omega
  have hstop := genLoop_of_full total draw 0 fixedNumbers hfull fuel
  rw [hstop] at hr0
  obtain rfl : fixedNumbers = r0 := Option.some.inj hr0
  refine ⟨rfl, ?_⟩
  intro draw2 fuel2
  unfold generateUniqueNumbersWithFixed
  rw [jsSetOfList_eq_self hnd, genLoop_of_full total draw2 0 fixedNumbers hfull fuel2]
  rfl

theorem C2_generateUniqueNumbersWithFixed_witness :
    ([1, 2, 3] : List Int).length = 3 ∧ (2 : Int) ∈ ([1, 2, 3] : List Int) := by
  have h := C2_generateUniqueNumbersWithFixed 1 6 3 [2]
    (fun k => ((k % 6 : Nat) : Int) + 1) 10 [1, 2, 3]
    (by decide) (by decide) (by decide) (by decide)
    (by
      intro k
      have h6 : k % 6 < 6 := Nat.mod_lt _ (by omega)
      show (1 : Int) ≤ ((k % 6 : Nat) : Int) + 1 ∧ ((k % 6 : Nat) : Int) + 1 ≤ 6
      omega)
    (by decide)
  exact ⟨h.1.1, h.1.2.2.2.2 2 (by decide)⟩
